import Mathlib

/-!
Verification of the geometric-estimation core of the multiple-view-geometry
structure-from-motion pipeline (`HW6 - Multiple View Geometry.py`).

The numeric code is embedded over `ℚ` (an exact idealization of the float
arithmetic).  Dense SVD, `cv2.projectPoints` and the feature matcher are
consumed by the source as external library primitives; they are modelled as
explicit function parameters, and theorems that depend on their analytic
postconditions (orthogonality of the returned factors) take those
postconditions as hypotheses.
-/

open Matrix

namespace MVG

/-- 3x3 rational matrices, the type of `E`, `R`, `K`, `U`, `VT` in the source. -/
abbrev M3 : Type := Matrix (Fin 3) (Fin 3) ℚ

/-- 3x4 rational matrices, the type of `Rt = [R|t]`, `P = K[R|t]` and poses. -/
abbrev M34 : Type := Matrix (Fin 3) (Fin 4) ℚ

/-- 4x4 rational matrices, the type of the per-point triangulation system `A`. -/
abbrev M4 : Type := Matrix (Fin 4) (Fin 4) ℚ

/-! ### Essential-matrix decomposition (source lines 561-585) -/

/-- `W = np.array([[0,-1,0],[1,0,0],[0,0,1]])`, the 90-degree rotation about z. -/
def Wmat : M3 := Matrix.of ![![0, -1, 0], ![1, 0, 0], ![0, 0, 1]]

/-- The four rotation candidates computed by the source from the SVD factors of `E`:
`R1 = U W VT`, `R2 = U Wᵀ VT`, `R3 = (-U) W VT`, `R4 = (-U) Wᵀ VT`. -/
def rotationCandidates (U VT : M3) : List M3 :=
  [U * Wmat * VT, U * Wmatᵀ * VT, (-U) * Wmat * VT, (-U) * Wmatᵀ * VT]

/-- The selection loop of the source:
`for R in rotations: if len(Rs) == 2: break; if det(R) > 0: Rs.append(R)`. -/
def selectRotations (rotations : List M3) : List M3 :=
  rotations.foldl
    (fun Rs R => if Rs.length = 2 then Rs else if 0 < R.det then Rs ++ [R] else Rs) []

/-- The list `Rs` of retained rotations produced by the decomposition cell, as a
function of the SVD factors `U`, `VT` of `E` (`U, _, VT = np.linalg.svd(E)`). -/
def decomposeRs (U VT : M3) : List M3 := selectRotations (rotationCandidates U VT)

theorem det_Wmat : Wmat.det = 1 := by
  simp [Wmat, Matrix.det_fin_three]

theorem det_of_orthogonal {U : M3} (hU : U * Uᵀ = 1) : U.det = 1 ∨ U.det = -1 := by
  have h : U.det * U.det = 1 := by
    have h0 := congrArg Matrix.det hU
    rwa [Matrix.det_mul, Matrix.det_transpose, Matrix.det_one] at h0
  exact mul_self_eq_one_iff.mp h

theorem selectRotations_of_pos {A B C D : M3} (hA : 0 < A.det) (hB : 0 < B.det) :
    selectRotations [A, B, C, D] = [A, B] := by
  simp [selectRotations, hA, hB]

theorem selectRotations_of_neg {A B C D : M3} (hA : ¬ 0 < A.det) (hB : ¬ 0 < B.det)
    (hC : 0 < C.det) (hD : 0 < D.det) : selectRotations [A, B, C, D] = [C, D] := by
  simp [selectRotations, hA, hB, hC, hD]

/-- C4: for orthogonal SVD factors `U`, `VT`, the decomposition that forms the four
candidates `UWVᵀ, UWᵀVᵀ, -UWVᵀ, -UWᵀVᵀ` and keeps the positive-determinant ones
(with the source's break-at-two loop) always retains exactly 2 rotation candidates. -/
theorem decomposeRs_length_two (U VT : M3) (hU : U * Uᵀ = 1) (hV : VT * VTᵀ = 1) :
    (decomposeRs U VT).length = 2 := by
  have hW : Wmat.det = 1 := det_Wmat
  have hWT : Wmatᵀ.det = 1 := by rw [Matrix.det_transpose]; exact hW
  have h1 : (U * Wmat * VT).det = U.det * VT.det := by
    rw [Matrix.det_mul, Matrix.det_mul, hW, mul_one]
  have h2 : (U * Wmatᵀ * VT).det = U.det * VT.det := by
    rw [Matrix.det_mul, Matrix.det_mul, hWT, mul_one]
  have hneg : (-U).det = -U.det := by
    rw [Matrix.det_neg]
    norm_num
  have h3 : ((-U) * Wmat * VT).det = -(U.det * VT.det) := by
    rw [Matrix.det_mul, Matrix.det_mul, hneg, hW, mul_one, neg_mul]
  have h4 : ((-U) * Wmatᵀ * VT).det = -(U.det * VT.det) := by
    rw [Matrix.det_mul, Matrix.det_mul, hneg, hWT, mul_one, neg_mul]
  rw [decomposeRs, rotationCandidates]
  rcases det_of_orthogonal hU with hu | hu <;> rcases det_of_orthogonal hV with hv | hv
  · rw [selectRotations_of_pos (by rw [h1, hu, hv]; norm_num) (by rw [h2, hu, hv]; norm_num)]
    rfl
  · rw [selectRotations_of_neg (by rw [h1, hu, hv]; norm_num) (by rw [h2, hu, hv]; norm_num)
      (by rw [h3, hu, hv]; norm_num) (by rw [h4, hu, hv]; norm_num)]
    rfl
  · rw [selectRotations_of_neg (by rw [h1, hu, hv]; norm_num) (by rw [h2, hu, hv]; norm_num)
      (by rw [h3, hu, hv]; norm_num) (by rw [h4, hu, hv]; norm_num)]
    rfl
  · rw [selectRotations_of_pos (by rw [h1, hu, hv]; norm_num) (by rw [h2, hu, hv]; norm_num)]
    rfl

/-- Witness for C4 at the concrete orthogonal factors `U = VT = 1`. -/
theorem decomposeRs_length_two_witness :
    ((1 : M3) * (1 : M3)ᵀ = 1 ∧ (1 : M3) * (1 : M3)ᵀ = 1) ∧
      (decomposeRs 1 1).length = 2 :=
  ⟨⟨by simp, by simp⟩, decomposeRs_length_two 1 1 (by simp) (by simp)⟩

/-! ### Essential-matrix linear solver, `calculateEssentialMatrix` (source lines 362-386)

The two calls to `np.linalg.svd` are external primitives; they enter as the
function parameters `svd9` (returning the 9x9 `V` of the first SVD, i.e. numpy's
`Vh`) and `svd3` (returning the pair `(U, VT)` of the second SVD). -/

/-- One row of the constraint matrix: `np.kron(ptsRightHomog[i], ptsLeftHomog[i])`. -/
def kronRow (a b : Fin 3 → ℚ) : Fin 9 → ℚ :=
  fun k => a ⟨k.val / 3, Nat.div_lt_of_lt_mul k.isLt⟩ *
    b ⟨k.val % 3, Nat.mod_lt _ (by norm_num)⟩

/-- `V[-1].reshape((3, 3))`: row-major reshape of a 9-vector to a 3x3 matrix. -/
def reshape3 (v : Fin 9 → ℚ) : M3 :=
  Matrix.of fun r c => v ⟨3 * r.val + c.val, by
    have hr := r.isLt
    have hc := c.isLt
    omega⟩

/-- `Sigma = np.diag([1, 1, 0])`. -/
def sigma110 : M3 := Matrix.diagonal ![1, 1, 0]

/-- The unconstrained solution of the first SVD before rank-2 projection:
`E = V[-1].reshape((3,3))` where `_, _, V = np.linalg.svd(A)` and row `i` of `A`
is `np.kron(ptsRightHomog[i], ptsLeftHomog[i])`. -/
def preRank2E {n : ℕ} (svd9 : Matrix (Fin n) (Fin 9) ℚ → Matrix (Fin 9) (Fin 9) ℚ)
    (ptsLeftHomog ptsRightHomog : Fin n → Fin 3 → ℚ) : M3 :=
  reshape3 (svd9 (Matrix.of fun i => kronRow (ptsRightHomog i) (ptsLeftHomog i)) 8)

/-- `calculateEssentialMatrix`: build `A`, take the last row of the first SVD's `V`,
reshape to 3x3, then recompose `U @ diag(1,1,0) @ VT` from a second SVD.
The source performs no check on the number of correspondences. -/
def calculateEssentialMatrix {n : ℕ}
    (svd9 : Matrix (Fin n) (Fin 9) ℚ → Matrix (Fin 9) (Fin 9) ℚ)
    (svd3 : M3 → M3 × M3)
    (ptsLeftHomog ptsRightHomog : Fin n → Fin 3 → ℚ) : M3 :=
  let E := preRank2E svd9 ptsLeftHomog ptsRightHomog
  (svd3 E).1 * sigma110 * (svd3 E).2

theorem rank_sigma110 : sigma110.rank = 2 := by
  rw [sigma110, Matrix.rank_diagonal]
  decide

theorem isUnit_det_of_orthogonal {U : M3} (hU : U * Uᵀ = 1) : IsUnit U.det := by
  have h : U.det * Uᵀ.det = 1 := by
    rw [← Matrix.det_mul, hU, Matrix.det_one]
  exact isUnit_of_mul_eq_one _ _ h

/-- C5: whenever the second SVD returns orthogonal factors `U`, `VT` (the library
postcondition of `np.linalg.svd`), the matrix returned by `calculateEssentialMatrix`
has rank exactly 2, and `Eᵀ E = VTᵀ diag(1,1,0) VT`, i.e. its singular values are
exactly `(1, 1, 0)`, because the singular values are replaced by `(1,1,0)` before
recomposition. -/
theorem calculateEssentialMatrix_rank_two {n : ℕ}
    (svd9 : Matrix (Fin n) (Fin 9) ℚ → Matrix (Fin 9) (Fin 9) ℚ)
    (svd3 : M3 → M3 × M3)
    (ptsLeftHomog ptsRightHomog : Fin n → Fin 3 → ℚ)
    (hU : (svd3 (preRank2E svd9 ptsLeftHomog ptsRightHomog)).1 *
      (svd3 (preRank2E svd9 ptsLeftHomog ptsRightHomog)).1ᵀ = 1)
    (hV : (svd3 (preRank2E svd9 ptsLeftHomog ptsRightHomog)).2 *
      (svd3 (preRank2E svd9 ptsLeftHomog ptsRightHomog)).2ᵀ = 1) :
    (calculateEssentialMatrix svd9 svd3 ptsLeftHomog ptsRightHomog).rank = 2 ∧
    (calculateEssentialMatrix svd9 svd3 ptsLeftHomog ptsRightHomog)ᵀ *
        calculateEssentialMatrix svd9 svd3 ptsLeftHomog ptsRightHomog =
      (svd3 (preRank2E svd9 ptsLeftHomog ptsRightHomog)).2ᵀ * sigma110 *
        (svd3 (preRank2E svd9 ptsLeftHomog ptsRightHomog)).2 := by
  set U : M3 := (svd3 (preRank2E svd9 ptsLeftHomog ptsRightHomog)).1 with hUdef
  set VT : M3 := (svd3 (preRank2E svd9 ptsLeftHomog ptsRightHomog)).2 with hVdef
  have hE : calculateEssentialMatrix svd9 svd3 ptsLeftHomog ptsRightHomog =
      U * sigma110 * VT := rfl
  constructor
  · rw [hE, Matrix.rank_mul_eq_left_of_isUnit_det VT (U * sigma110)
      (isUnit_det_of_orthogonal hV),
      Matrix.rank_mul_eq_right_of_isUnit_det U sigma110 (isUnit_det_of_orthogonal hU),
      rank_sigma110]
  · have hU' : Uᵀ * U = 1 := Matrix.mul_eq_one_comm.mp hU
    have hsig : sigma110ᵀ * sigma110 = sigma110 := by
      ext i j
      fin_cases i <;> fin_cases j <;>
        norm_num [sigma110, Matrix.mul_apply, Fin.sum_univ_three, Matrix.diagonal,
          Matrix.transpose_apply] <;> decide
    calc (U * sigma110 * VT)ᵀ * (U * sigma110 * VT)
        = VTᵀ * (sigma110ᵀ * ((Uᵀ * U) * (sigma110 * VT))) := by
          simp only [Matrix.transpose_mul, Matrix.mul_assoc]
      _ = VTᵀ * ((sigma110ᵀ * sigma110) * VT) := by
          rw [hU', Matrix.one_mul, Matrix.mul_assoc]
      _ = VTᵀ * sigma110 * VT := by rw [hsig, Matrix.mul_assoc]

/-- Witness for C5 at a concrete input (one correspondence, identity-returning
SVD stubs with orthogonal factors). -/
theorem calculateEssentialMatrix_rank_two_witness :
    ((fun _ : M3 => ((1 : M3), (1 : M3))) (preRank2E (n := 1) (fun _ => 1)
        (fun _ => ![1, 2, 3]) (fun _ => ![4, 5, 6]))).1 *
      ((fun _ : M3 => ((1 : M3), (1 : M3))) (preRank2E (n := 1) (fun _ => 1)
        (fun _ => ![1, 2, 3]) (fun _ => ![4, 5, 6]))).1ᵀ = 1 ∧
    (calculateEssentialMatrix (n := 1) (fun _ => 1) (fun _ => (1, 1))
      (fun _ => ![1, 2, 3]) (fun _ => ![4, 5, 6])).rank = 2 :=
  ⟨by simp, (calculateEssentialMatrix_rank_two (n := 1) (fun _ => 1) (fun _ => (1, 1))
    (fun _ => ![1, 2, 3]) (fun _ => ![4, 5, 6]) (by simp) (by simp)).1⟩

/-- C3 counterexample: with a single correspondence (1 < 8), `calculateEssentialMatrix`
runs to completion and silently returns a matrix (computed here for the SVD stubs
`svd9 = const ones`, `svd3 E = (1, E)`); the source has no insufficient-correspondences
check and no failure path, so it never "fails fast" on fewer than 8 correspondences. -/
theorem calculateEssentialMatrix_single_point_cex :
    calculateEssentialMatrix (n := 1) (fun _ => Matrix.of fun _ _ => 1) (fun E => (1, E))
      (fun _ => ![1, 2, 3]) (fun _ => ![4, 5, 6]) =
      Matrix.of ![![1, 1, 1], ![1, 1, 1], ![0, 0, 0]] := by
  ext i j
  fin_cases i <;> fin_cases j <;>
    norm_num [calculateEssentialMatrix, preRank2E, reshape3, sigma110,
      Matrix.mul_apply, Fin.sum_univ_three, Matrix.diagonal, Matrix.one_apply]

/-- C3 (amended): for fewer than 8 correspondences the solver performs no check and
silently returns the recomposed matrix, which is always of rank at most 2 — a
degenerate solution rather than an "insufficient correspondences" failure. -/
theorem calculateEssentialMatrix_underdetermined_rank_le_two {n : ℕ}
    (svd9 : Matrix (Fin n) (Fin 9) ℚ → Matrix (Fin 9) (Fin 9) ℚ)
    (svd3 : M3 → M3 × M3)
    (ptsLeftHomog ptsRightHomog : Fin n → Fin 3 → ℚ) (hn : n < 8) :
    (calculateEssentialMatrix svd9 svd3 ptsLeftHomog ptsRightHomog).rank ≤ 2 := by
  calc (calculateEssentialMatrix svd9 svd3 ptsLeftHomog ptsRightHomog).rank
      ≤ ((svd3 (preRank2E svd9 ptsLeftHomog ptsRightHomog)).1 * sigma110).rank :=
        Matrix.rank_mul_le_left _ _
    _ ≤ sigma110.rank := Matrix.rank_mul_le_right _ _
    _ ≤ 2 := le_of_eq rank_sigma110

/-- Witness for the amended C3 at the concrete 1-correspondence input. -/
theorem calculateEssentialMatrix_underdetermined_witness :
    1 < 8 ∧ (calculateEssentialMatrix (n := 1) (fun _ => Matrix.of fun _ _ => 1)
      (fun E => (1, E)) (fun _ => ![1, 2, 3]) (fun _ => ![4, 5, 6])).rank ≤ 2 :=
  ⟨by norm_num,
    calculateEssentialMatrix_underdetermined_rank_le_two _ _ _ _ (by norm_num)⟩

/-! ### Two-view linear triangulation, `triangulatePoints` (source lines 681-717)

`np.linalg.svd` on the per-point 4x4 system enters as the parameter `svd4`
(returning numpy's `VT`). -/

/-- `Rt = np.concatenate((R, t.reshape(3, 1)), axis=1)`: the 3x4 extrinsic `[R|t]`. -/
def RtMat (R : M3) (t : Fin 3 → ℚ) : M34 :=
  Matrix.of fun i => ![R i 0, R i 1, R i 2, t i]

/-- The per-point 4x4 system `A` exactly as the source populates it: the first two
rows pair the right point `(x_r, y_r)` with `P = K[R|t]`, the last two rows pair
the left point `(x_l, y_l)` with `Rt = [R|t]` (not with the identity extrinsic). -/
def triangulationA (R : M3) (t : Fin 3 → ℚ) (K_ : M3) (xr yr xl yl : ℚ) : M4 :=
  let Rt := RtMat R t
  let P := K_ * Rt
  Matrix.of ![
    ![xr * P 2 0 - P 0 0, xr * P 2 1 - P 0 1, xr * P 2 2 - P 0 2, xr * P 2 3 - P 0 3],
    ![yr * P 2 0 - P 1 0, yr * P 2 1 - P 1 1, yr * P 2 2 - P 1 2, yr * P 2 3 - P 1 3],
    ![xl * Rt 2 0 - Rt 0 0, xl * Rt 2 1 - Rt 0 1, xl * Rt 2 2 - Rt 0 2,
      xl * Rt 2 3 - Rt 0 3],
    ![yl * Rt 2 0 - Rt 1 0, yl * Rt 2 1 - Rt 1 1, yl * Rt 2 2 - Rt 1 2,
      yl * Rt 2 3 - Rt 1 3]]

/-- `triangulatePoints`: per point pair, build `A`, take the last row of the SVD's
`VT` and divide by its 4th coordinate, returning Euclidean `(X, Y, Z)`. -/
def triangulatePoints (svd4 : M4 → M4) (pts2Dr pts2Dl : List (ℚ × ℚ))
    (R : M3) (t : Fin 3 → ℚ) (K_ : M3) : List (Fin 3 → ℚ) :=
  (List.zip pts2Dr pts2Dl).map fun pr =>
    let A := triangulationA R t K_ pr.1.1 pr.1.2 pr.2.1 pr.2.2
    let v := svd4 A 3
    ![v 0 / v 3, v 1 / v 3, v 2 / v 3]

/-- The constraint matrix the claim (and the derivation in the source's own markdown
cell) describes: the two left-view rows are built from the identity extrinsic
`[I|0]`, not from `[R|t]`. -/
def triangulationAIdentityLeft (R : M3) (t : Fin 3 → ℚ) (K_ : M3)
    (xr yr xl yl : ℚ) : M4 :=
  let Rt := RtMat R t
  let P := K_ * Rt
  let Q := RtMat 1 (fun _ => 0)
  Matrix.of ![
    ![xr * P 2 0 - P 0 0, xr * P 2 1 - P 0 1, xr * P 2 2 - P 0 2, xr * P 2 3 - P 0 3],
    ![yr * P 2 0 - P 1 0, yr * P 2 1 - P 1 1, yr * P 2 2 - P 1 2, yr * P 2 3 - P 1 3],
    ![xl * Q 2 0 - Q 0 0, xl * Q 2 1 - Q 0 1, xl * Q 2 2 - Q 0 2, xl * Q 2 3 - Q 0 3],
    ![yl * Q 2 0 - Q 1 0, yl * Q 2 1 - Q 1 1, yl * Q 2 2 - Q 1 2, yl * Q 2 3 - Q 1 3]]

/-- C1: at the concrete input `R = I`, `t = (0,0,1)`, `K = I`, right point `(0,0)`,
left point `(1,0)`, the matrix the source builds differs from the claimed one in the
left-view rows: entry `(2,3)` is `1` (the translation `t_z` leaking in through the
`[R|t]` rows) where the identity-extrinsic construction of the claim gives `0`.
The source therefore does not build the left-view rows from the identity extrinsic. -/
theorem triangulationA_left_rows_not_identity :
    triangulationA 1 ![0, 0, 1] 1 0 0 1 0 2 3 = 1 ∧
    triangulationAIdentityLeft 1 ![0, 0, 1] 1 0 0 1 0 2 3 = 0 := by
  constructor <;>
    norm_num [triangulationA, triangulationAIdentityLeft, RtMat,
      Matrix.mul_apply, Fin.sum_univ_three, Matrix.one_apply,
      Matrix.vecHead, Matrix.vecTail]

/-! ### Two-view essential-matrix RANSAC loop (source lines 405-454)

The solver called inside the loop (`calculateEssentialMatrix`, whose output is
determined by the external SVD) enters as the abstract parameter `calcE`; the drawn
random sample enters as the index list `sample` (`np.random.choice` is external). -/

/-- The epipolar residual of one correspondence:
`np.abs(np.matmul(mpts10f[i], l))` with `l` the `i`-th column of `E @ mpts01f.T`. -/
def epipolarDist (E : M3) (xl xr : Fin 3 → ℚ) : ℚ :=
  |dotProduct xr (E.mulVec xl)|

/-- The Boolean inlier mask `inliers = d < 0.0002` of a model over the full set. -/
def inlierMask {n : ℕ} (E : M3) (ptsL ptsR : Fin n → Fin 3 → ℚ) : Fin n → Bool :=
  fun i => decide (epipolarDist E (ptsL i) (ptsR i) < 0.0002)

/-- The indices a Boolean mask selects (`mpts01f[inliers]` selects these rows). -/
def inlierIndices {n : ℕ} (mask : Fin n → Bool) : List (Fin n) :=
  (List.finRange n).filter fun i => mask i

/-- `E_guess = calculateEssentialMatrix(pts_left, pts_right)` on the drawn sample. -/
def sampleModel {n : ℕ} (calcE : List ((Fin 3 → ℚ) × (Fin 3 → ℚ)) → M3)
    (ptsL ptsR : Fin n → Fin 3 → ℚ) (sample : List (Fin n)) : M3 :=
  calcE (sample.map fun i => (ptsL i, ptsR i))

/-- `E_inliers = calculateEssentialMatrix(inlier_pts_left, inlier_pts_right)`:
the model refit on all inliers of `E_guess`. -/
def refitModel {n : ℕ} (calcE : List ((Fin 3 → ℚ) × (Fin 3 → ℚ)) → M3)
    (ptsL ptsR : Fin n → Fin 3 → ℚ) (sample : List (Fin n)) : M3 :=
  calcE ((inlierIndices
    (inlierMask (sampleModel calcE ptsL ptsR sample) ptsL ptsR)).map
      fun i => (ptsL i, ptsR i))

/-- `np.mean(d1[best_inliers])` where `d1` are the distances of the model `E`:
the sum of `E`'s distances over the masked indices divided by their count. -/
def meanInlierError {n : ℕ} (E : M3) (ptsL ptsR : Fin n → Fin 3 → ℚ)
    (mask : Fin n → Bool) : ℚ :=
  ((inlierIndices mask).map fun i => epipolarDist E (ptsL i) (ptsR i)).sum /
    ((inlierIndices mask).length : ℚ)

/-- The loop accumulator `maxv`, `best_inliers`, `best_E` and the printed `error`
(all initialized before the loop; the options start as `None`/undefined). -/
structure RansacBest (n : ℕ) where
  maxv : ℕ
  best_inliers : Option (Fin n → Bool)
  best_E : Option M3
  error : Option ℚ

/-- One iteration of the source's RANSAC loop over an already-drawn `sample`:
fit `E_guess` on the sample, classify inliers by epipolar distance `< 0.0002`,
refit `E_inliers` on those inliers, score by `np.sum(inliers)`; if the score beats
`maxv`, record `(score, inliers, E_inliers)` and the error
`np.mean(d1[best_inliers])` with `d1` computed from `best_E = E_inliers`. -/
def ransacStep {n : ℕ} (calcE : List ((Fin 3 → ℚ) × (Fin 3 → ℚ)) → M3)
    (ptsL ptsR : Fin n → Fin 3 → ℚ) (sample : List (Fin n))
    (st : RansacBest n) : RansacBest n :=
  let E_guess := sampleModel calcE ptsL ptsR sample
  let inliers := inlierMask E_guess ptsL ptsR
  let E_inliers := refitModel calcE ptsL ptsR sample
  let score := (inlierIndices inliers).length
  if st.maxv < score then
    { maxv := score, best_inliers := some inliers, best_E := some E_inliers,
      error := some (meanInlierError E_inliers ptsL ptsR inliers) }
  else st

/-- C7: an iteration whose inlier set is empty scores 0 and leaves the best-so-far
state (model, inlier mask, score, error) unchanged: the step is a total function,
so no crash occurs, and 0 never exceeds the natural-number score `maxv`. -/
theorem ransacStep_empty_inliers {n : ℕ}
    (calcE : List ((Fin 3 → ℚ) × (Fin 3 → ℚ)) → M3)
    (ptsL ptsR : Fin n → Fin 3 → ℚ) (sample : List (Fin n)) (st : RansacBest n)
    (h : ∀ i : Fin n,
      ¬ epipolarDist (sampleModel calcE ptsL ptsR sample) (ptsL i) (ptsR i) < 0.0002) :
    ransacStep calcE ptsL ptsR sample st = st := by
  have hmask : inlierMask (sampleModel calcE ptsL ptsR sample) ptsL ptsR =
      fun _ => false := by
    funext i
    simp [inlierMask, h i]
  have hidx : inlierIndices
      (inlierMask (sampleModel calcE ptsL ptsR sample) ptsL ptsR) = [] := by
    rw [hmask]
    simp [inlierIndices]
  simp only [ransacStep, hidx, List.length_nil]
  rw [if_neg (Nat.not_lt_zero _)]

/-- Witness for C7 at a concrete degenerate iteration (every distance is 3). -/
theorem ransacStep_empty_inliers_witness :
    (∀ i : Fin 1, ¬ epipolarDist
        (sampleModel (fun _ => 1) (fun _ => ![1, 1, 1]) (fun _ => ![1, 1, 1])
          ([0] : List (Fin 1)))
        ((fun _ : Fin 1 => ![1, 1, 1]) i) ((fun _ : Fin 1 => ![1, 1, 1]) i) < 0.0002) ∧
    ransacStep (fun _ => 1) (fun _ : Fin 1 => ![1, 1, 1]) (fun _ => ![1, 1, 1])
        ([0] : List (Fin 1)) ⟨0, none, none, none⟩ = ⟨0, none, none, none⟩ := by
  have h : ∀ i : Fin 1, ¬ epipolarDist
      (sampleModel (fun _ => 1) (fun _ => ![1, 1, 1]) (fun _ => ![1, 1, 1])
        ([0] : List (Fin 1)))
      ((fun _ : Fin 1 => ![1, 1, 1]) i) ((fun _ : Fin 1 => ![1, 1, 1]) i) < 0.0002 := by
    intro i
    norm_num [epipolarDist, sampleModel, Matrix.mulVec, dotProduct,
      Fin.sum_univ_three, Matrix.one_apply]
  exact ⟨h, ransacStep_empty_inliers _ _ _ _ _ h⟩

/-! Concrete instance showing the best-so-far bookkeeping is not re-scored. -/

/-- Two correspondences used in the C2 counterexample. -/
def cexPtsL : Fin 2 → Fin 3 → ℚ := ![![1, 0, 0], ![0, 1, 0]]

/-- Right-view copies of the same two correspondences. -/
def cexPtsR : Fin 2 → Fin 3 → ℚ := ![![1, 0, 0], ![0, 1, 0]]

/-- The model the counterexample solver returns on the 2-element minimal sample:
distance 0 on the first point, 1 on the second. -/
def cexEg : M3 := Matrix.of ![![0, 0, 0], ![0, 1, 0], ![0, 0, 0]]

/-- The model the counterexample solver returns on the refit (1-element) list:
distance 0 on the first point, 0.0001 on the second, so both re-score as inliers. -/
def cexEi : M3 := Matrix.of ![![0, 0, 0], ![0, 0.0001, 0], ![0, 0, 0]]

/-- An abstract-solver instance: returns `cexEg` on 2-element inputs (the sample),
`cexEi` otherwise (the inlier refit). -/
def cexCalcE : List ((Fin 3 → ℚ) × (Fin 3 → ℚ)) → M3 :=
  fun l => if l.length = 2 then cexEg else cexEi

/-- The loop state before the counterexample iteration. -/
def cexInit : RansacBest 2 := ⟨0, none, none, none⟩

theorem cexDistEg0 : epipolarDist cexEg (cexPtsL 0) (cexPtsR 0) = 0 := by
  norm_num [epipolarDist, cexEg, cexPtsL, cexPtsR, Matrix.mulVec, dotProduct,
    Fin.sum_univ_three]

theorem cexDistEg1 : epipolarDist cexEg (cexPtsL 1) (cexPtsR 1) = 1 := by
  norm_num [epipolarDist, cexEg, cexPtsL, cexPtsR, Matrix.mulVec, dotProduct,
    Fin.sum_univ_three]

theorem cexDistEi0 : epipolarDist cexEi (cexPtsL 0) (cexPtsR 0) = 0 := by
  norm_num [epipolarDist, cexEi, cexPtsL, cexPtsR, Matrix.mulVec, dotProduct,
    Fin.sum_univ_three]

theorem cexDistEi1 : epipolarDist cexEi (cexPtsL 1) (cexPtsR 1) = 0.0001 := by
  norm_num [epipolarDist, cexEi, cexPtsL, cexPtsR, Matrix.mulVec, dotProduct,
    Fin.sum_univ_three]

theorem cexMaskEg : inlierMask cexEg cexPtsL cexPtsR = ![true, false] := by
  funext i
  fin_cases i
  · simp [inlierMask, cexDistEg0]
    norm_num
  · simp [inlierMask, cexDistEg1]
    norm_num

theorem cexMaskEi : inlierMask cexEi cexPtsL cexPtsR = ![true, true] := by
  funext i
  fin_cases i
  · simp [inlierMask, cexDistEi0]
    norm_num
  · simp [inlierMask, cexDistEi1]
    norm_num

theorem cexSampleModel : sampleModel cexCalcE cexPtsL cexPtsR [0, 1] = cexEg := rfl

theorem cexIdxEg : inlierIndices (![true, false] : Fin 2 → Bool) = [0] := by decide

theorem cexIdxEi : inlierIndices (![true, true] : Fin 2 → Bool) = [0, 1] := by decide

theorem cexRefitModel : refitModel cexCalcE cexPtsL cexPtsR [0, 1] = cexEi := by
  rw [refitModel, cexSampleModel, cexMaskEg, cexIdxEg]
  rfl

/-- C2 counterexample: at a concrete iteration that improves on the best so far,
the loop records the refit model `cexEi`, yet the recorded inlier mask is the mask
of the minimal-sample model `cexEg` — which differs from the mask obtained by
re-scoring the refit model against the full correspondence set — and the recorded
mean inlier error (the refit model's distances averaged over the old mask) differs
from the re-scored mean inlier error of the refit model. -/
theorem ransacStep_not_rescored_cex :
    (ransacStep cexCalcE cexPtsL cexPtsR [0, 1] cexInit).best_E = some cexEi ∧
    (ransacStep cexCalcE cexPtsL cexPtsR [0, 1] cexInit).best_inliers =
      some (inlierMask cexEg cexPtsL cexPtsR) ∧
    inlierMask cexEg cexPtsL cexPtsR ≠ inlierMask cexEi cexPtsL cexPtsR ∧
    (ransacStep cexCalcE cexPtsL cexPtsR [0, 1] cexInit).error =
      some (meanInlierError cexEi cexPtsL cexPtsR (inlierMask cexEg cexPtsL cexPtsR)) ∧
    meanInlierError cexEi cexPtsL cexPtsR (inlierMask cexEg cexPtsL cexPtsR) ≠
      meanInlierError cexEi cexPtsL cexPtsR (inlierMask cexEi cexPtsL cexPtsR) := by
  have hstep : ransacStep cexCalcE cexPtsL cexPtsR [0, 1] cexInit =
      { maxv := 1, best_inliers := some (inlierMask cexEg cexPtsL cexPtsR),
        best_E := some cexEi,
        error := some (meanInlierError cexEi cexPtsL cexPtsR
          (inlierMask cexEg cexPtsL cexPtsR)) } := by
    simp only [ransacStep, cexSampleModel, cexRefitModel, cexMaskEg, cexIdxEg,
      List.length_singleton]
    rw [if_pos (by norm_num [cexInit])]
  refine ⟨by rw [hstep], by rw [hstep], ?_, by rw [hstep], ?_⟩
  · rw [cexMaskEg, cexMaskEi]
    decide
  · rw [cexMaskEg, cexMaskEi]
    norm_num [meanInlierError, cexIdxEg, cexIdxEi, cexDistEi0, cexDistEi1]

/-- C2 (amended): whenever an iteration's inlier count exceeds the best so far, the
loop records as new best the model refit on all of that iteration's inliers, but the
recorded inlier mask is the mask computed from the minimal-sample model `E_guess`
(the refit model is not re-scored), and the recorded mean inlier error averages the
refit model's distances over that minimal-sample mask. -/
theorem ransacStep_records_refit {n : ℕ}
    (calcE : List ((Fin 3 → ℚ) × (Fin 3 → ℚ)) → M3)
    (ptsL ptsR : Fin n → Fin 3 → ℚ) (sample : List (Fin n)) (st : RansacBest n)
    (h : st.maxv < (inlierIndices
      (inlierMask (sampleModel calcE ptsL ptsR sample) ptsL ptsR)).length) :
    ransacStep calcE ptsL ptsR sample st =
      { maxv := (inlierIndices
          (inlierMask (sampleModel calcE ptsL ptsR sample) ptsL ptsR)).length,
        best_inliers := some (inlierMask (sampleModel calcE ptsL ptsR sample) ptsL ptsR),
        best_E := some (refitModel calcE ptsL ptsR sample),
        error := some (meanInlierError (refitModel calcE ptsL ptsR sample) ptsL ptsR
          (inlierMask (sampleModel calcE ptsL ptsR sample) ptsL ptsR)) } := by
  simp only [ransacStep]
  rw [if_pos h]

/-- Witness for the amended C2 at the concrete counterexample iteration. -/
theorem ransacStep_records_refit_witness :
    cexInit.maxv < (inlierIndices
      (inlierMask (sampleModel cexCalcE cexPtsL cexPtsR [0, 1]) cexPtsL cexPtsR)).length ∧
    ransacStep cexCalcE cexPtsL cexPtsR [0, 1] cexInit =
      { maxv := (inlierIndices
          (inlierMask (sampleModel cexCalcE cexPtsL cexPtsR [0, 1]) cexPtsL cexPtsR)).length,
        best_inliers := some (inlierMask (sampleModel cexCalcE cexPtsL cexPtsR [0, 1])
          cexPtsL cexPtsR),
        best_E := some (refitModel cexCalcE cexPtsL cexPtsR [0, 1]),
        error := some (meanInlierError (refitModel cexCalcE cexPtsL cexPtsR [0, 1])
          cexPtsL cexPtsR
          (inlierMask (sampleModel cexCalcE cexPtsL cexPtsR [0, 1]) cexPtsL cexPtsR)) } := by
  have h : cexInit.maxv < (inlierIndices
      (inlierMask (sampleModel cexCalcE cexPtsL cexPtsR [0, 1]) cexPtsL cexPtsR)).length := by
    rw [cexSampleModel, cexMaskEg, cexIdxEg]
    norm_num [cexInit]
  exact ⟨h, ransacStep_records_refit _ _ _ _ _ h⟩

/-! ### Scene store `MatchMaker` (source lines 76-243)

`map_3d` is the ordered 3D point map, `vis` the per-camera visibility rows
(500 columns, `-1` meaning absent), `poses` the per-camera 3x4 poses. -/

/-- The mutable `MatchMaker` fields used by the two-view seeding stage. -/
structure MMState where
  map_3d : List (Fin 3 → ℚ)
  vis : ℕ → Fin 500 → ℤ
  poses : ℕ → M34

/-- `self.point3d_camera_visibility = -np.ones((len(self.images), 500), np.int32)`
(source line 114): the visibility relation is allocated with exactly 500 point
columns per camera, every entry the absent sentinel `-1`.  The fixed column type
`Fin 500` mirrors the fixed allocation, which no method ever resizes. -/
def initialVisibility : ℕ → Fin 500 → ℤ := fun _ _ => -1

/-- numpy boolean-mask selection `xs[mask]` (arrays of equal length). -/
def boolSelect {α : Type} : List α → List Bool → List α
  | x :: xs, b :: bs => if b then x :: boolSelect xs bs else boolSelect xs bs
  | _, _ => []

/-- numpy slice assignment `row[a:b] = vals` on a length-500 row: the slice bounds
clamp to 500 and the assignment requires the value length to equal the slice length,
otherwise numpy raises a broadcast `ValueError` (modelled as `none`).  (numpy's
length-1 broadcast succeeds only when the slice is nonempty; inside
`addNewPoints3D` the value length is always at least the clamped slice length, so
the only mismatch case is a strictly shorter slice, which numpy rejects also for
length-1 values against an empty slice.) -/
def sliceAssign (row : Fin 500 → ℤ) (a b : ℕ) (vals : List ℤ) :
    Option (Fin 500 → ℤ) :=
  if vals.length = min b 500 - min a 500 then
    some fun j => if min a 500 ≤ (j : ℕ) ∧ (j : ℕ) < min b 500 then
      vals.getD ((j : ℕ) - min a 500) 0 else row j
  else none

/-- The row produced by a successful in-bounds slice assignment starting at `a`. -/
def writtenRow (row : Fin 500 → ℤ) (a : ℕ) (vals : List ℤ) : Fin 500 → ℤ :=
  fun j => if a ≤ (j : ℕ) ∧ (j : ℕ) < a + vals.length then
    vals.getD ((j : ℕ) - a) 0 else row j

/-- `MatchMaker.addNewPoints3D(pts3d, li, rj, mask)` (source lines 163-174):
`mapIS = len(map_3d)`, `mapIE = mapIS + len(pts3d[mask])`; write
`alignedIdxL[mask]` into `vis[li, mapIS:mapIE]` and `alignedIdxR[mask]` into
`vis[rj, mapIS:mapIE]`; append `pts3d[mask]` to the map.  The aligned index
arrays come from `alignedIndices(li, rj)` (the external matcher's store) and
enter as parameters. -/
def addNewPoints3D (st : MMState) (pts3d : List (Fin 3 → ℚ)) (li rj : ℕ)
    (alignedIdxL alignedIdxR : List ℤ) (mask : List Bool) : Option MMState :=
  let mapIS := st.map_3d.length
  let mapIE := mapIS + (boolSelect pts3d mask).length
  match sliceAssign (st.vis li) mapIS mapIE (boolSelect alignedIdxL mask) with
  | none => none
  | some rowLi =>
    let vis1 : ℕ → Fin 500 → ℤ := fun c => if c = li then rowLi else st.vis c
    match sliceAssign (vis1 rj) mapIS mapIE (boolSelect alignedIdxR mask) with
    | none => none
    | some rowRj =>
      some { map_3d := st.map_3d ++ boolSelect pts3d mask,
             vis := fun c => if c = rj then rowRj else vis1 c,
             poses := st.poses }

theorem boolSelect_length_eq {α β : Type} :
    ∀ (mask : List Bool) (xs : List α) (ys : List β),
      xs.length = mask.length → ys.length = mask.length →
      (boolSelect xs mask).length = (boolSelect ys mask).length := by
  intro mask
  induction mask with
  | nil =>
    intro xs ys _ _
    cases xs <;> cases ys <;> simp [boolSelect]
  | cons b bs ih =>
    intro xs ys hx hy
    cases xs with
    | nil => simp at hx
    | cons x xs' =>
      cases ys with
      | nil => simp at hy
      | cons y ys' =>
        simp only [List.length_cons] at hx hy
        cases b <;> simp [boolSelect, ih xs' ys' (by omega) (by omega)]

theorem sliceAssign_in_bounds (row : Fin 500 → ℤ) (a : ℕ) (vals : List ℤ)
    (hcap : a + vals.length ≤ 500) :
    sliceAssign row a (a + vals.length) vals = some (writtenRow row a vals) := by
  have h1 : min a 500 = a := by omega
  have h2 : min (a + vals.length) 500 = a + vals.length := by omega
  rw [sliceAssign, h1, h2, if_pos (by omega)]
  rfl

theorem sliceAssign_mismatch (row : Fin 500 → ℤ) (a b : ℕ) (vals : List ℤ)
    (h : vals.length ≠ min b 500 - min a 500) :
    sliceAssign row a b vals = none := by
  rw [sliceAssign, if_neg h]

theorem writtenRow_apply (row : Fin 500 → ℤ) (a : ℕ) (vals : List ℤ) (m : ℕ)
    (hm : m < vals.length) (hj : a + m < 500) :
    writtenRow row a vals ⟨a + m, hj⟩ = vals.getD m 0 := by
  simp only [writtenRow]
  rw [if_pos ⟨Nat.le_add_right a m, by omega⟩, Nat.add_sub_cancel_left]

/-- The explicit result of a successful `addNewPoints3D` call. -/
theorem addNewPoints3D_some (st : MMState) (pts3d : List (Fin 3 → ℚ)) (li rj : ℕ)
    (idxL idxR : List ℤ) (mask : List Bool)
    (hP : pts3d.length = mask.length) (hL : idxL.length = mask.length)
    (hR : idxR.length = mask.length) (hlr : li ≠ rj)
    (hcap : st.map_3d.length + (boolSelect pts3d mask).length ≤ 500) :
    addNewPoints3D st pts3d li rj idxL idxR mask = some
      { map_3d := st.map_3d ++ boolSelect pts3d mask,
        vis := fun c =>
          if c = rj then writtenRow (st.vis rj) st.map_3d.length (boolSelect idxR mask)
          else if c = li then
            writtenRow (st.vis li) st.map_3d.length (boolSelect idxL mask)
          else st.vis c,
        poses := st.poses } := by
  have hLlen := boolSelect_length_eq mask idxL pts3d hL hP
  have hRlen := boolSelect_length_eq mask idxR pts3d hR hP
  have e1 : sliceAssign (st.vis li) st.map_3d.length
      (st.map_3d.length + (boolSelect pts3d mask).length) (boolSelect idxL mask) =
      some (writtenRow (st.vis li) st.map_3d.length (boolSelect idxL mask)) := by
    rw [← hLlen]
    exact sliceAssign_in_bounds _ _ _ (by rw [hLlen]; exact hcap)
  have e2 : sliceAssign
      (if rj = li then writtenRow (st.vis li) st.map_3d.length (boolSelect idxL mask)
        else st.vis rj)
      st.map_3d.length (st.map_3d.length + (boolSelect pts3d mask).length)
      (boolSelect idxR mask) =
      some (writtenRow (st.vis rj) st.map_3d.length (boolSelect idxR mask)) := by
    rw [if_neg (fun h => hlr h.symm), ← hRlen]
    exact sliceAssign_in_bounds _ _ _ (by rw [hRlen]; exact hcap)
  simp only [addNewPoints3D]
  rw [e1]
  simp only []
  rw [e2]

/-- C9: the visibility relation starts as a fixed 500-column allocation of `-1`s and
is never resized; if appending the masked points keeps the 3D map within 500 points,
`addNewPoints3D` succeeds and each appended point's visibility entries for the two
given cameras are written at the fresh column equal to its new map index; if the
append would push the map beyond 500 points, the call fails (the shape-mismatched
slice assignment yields `none`) instead of growing the relation. -/
theorem addNewPoints3D_capacity (st : MMState) (pts3d : List (Fin 3 → ℚ)) (li rj : ℕ)
    (idxL idxR : List ℤ) (mask : List Bool)
    (hP : pts3d.length = mask.length) (hL : idxL.length = mask.length)
    (hR : idxR.length = mask.length) (hlr : li ≠ rj)
    (hIS : st.map_3d.length ≤ 500) :
    (∀ c j, initialVisibility c j = -1) ∧
    (∀ hcap : st.map_3d.length + (boolSelect pts3d mask).length ≤ 500,
      ∃ st', addNewPoints3D st pts3d li rj idxL idxR mask = some st' ∧
        st'.map_3d = st.map_3d ++ boolSelect pts3d mask ∧
        ∀ m, ∀ hm : m < (boolSelect pts3d mask).length,
          st'.vis li ⟨st.map_3d.length + m, by omega⟩ =
            (boolSelect idxL mask).getD m 0 ∧
          st'.vis rj ⟨st.map_3d.length + m, by omega⟩ =
            (boolSelect idxR mask).getD m 0) ∧
    (500 < st.map_3d.length + (boolSelect pts3d mask).length →
      addNewPoints3D st pts3d li rj idxL idxR mask = none) := by
  have hLlen := boolSelect_length_eq mask idxL pts3d hL hP
  have hRlen := boolSelect_length_eq mask idxR pts3d hR hP
  refine ⟨fun c j => rfl, fun hcap => ?_, fun hover => ?_⟩
  · refine ⟨_, addNewPoints3D_some st pts3d li rj idxL idxR mask hP hL hR hlr hcap,
      rfl, ?_⟩
    intro m hm
    constructor
    · show (if li = rj then writtenRow (st.vis rj) st.map_3d.length (boolSelect idxR mask)
        else if li = li then
          writtenRow (st.vis li) st.map_3d.length (boolSelect idxL mask)
        else st.vis li) ⟨st.map_3d.length + m, by omega⟩ =
          (boolSelect idxL mask).getD m 0
      rw [if_neg hlr, if_pos rfl]
      exact writtenRow_apply _ _ _ m (by omega) (by omega)
    · show (if rj = rj then writtenRow (st.vis rj) st.map_3d.length (boolSelect idxR mask)
        else if rj = li then
          writtenRow (st.vis li) st.map_3d.length (boolSelect idxL mask)
        else st.vis rj) ⟨st.map_3d.length + m, by omega⟩ =
          (boolSelect idxR mask).getD m 0
      rw [if_pos rfl]
      exact writtenRow_apply _ _ _ m (by omega) (by omega)
  · simp only [addNewPoints3D]
    rw [sliceAssign_mismatch _ _ _ _ (by rw [hLlen]; omega)]

/-- An empty scene store used in the concrete witnesses. -/
def mmInit : MMState := ⟨[], initialVisibility, fun _ => 0⟩

/-- Witness for C9: one surviving point appended to an empty map at cameras 3, 7. -/
theorem addNewPoints3D_capacity_witness :
    ([(![1, 2, 3] : Fin 3 → ℚ)].length = [true].length ∧
      [(4 : ℤ)].length = [true].length ∧ [(7 : ℤ)].length = [true].length ∧
      (3 : ℕ) ≠ 7 ∧ mmInit.map_3d.length ≤ 500) ∧
    ((∀ c j, initialVisibility c j = -1) ∧
      (∀ _ : mmInit.map_3d.length + (boolSelect [![1, 2, 3]] [true]).length ≤ 500,
        ∃ st', addNewPoints3D mmInit [![1, 2, 3]] 3 7 [4] [7] [true] = some st' ∧
          st'.map_3d = mmInit.map_3d ++ boolSelect [![1, 2, 3]] [true] ∧
          ∀ m, ∀ hm : m < (boolSelect [![1, 2, 3]] [true]).length,
            st'.vis 3 ⟨mmInit.map_3d.length + m, by omega⟩ =
              (boolSelect [4] [true]).getD m 0 ∧
            st'.vis 7 ⟨mmInit.map_3d.length + m, by omega⟩ =
              (boolSelect [7] [true]).getD m 0) ∧
      (500 < mmInit.map_3d.length + (boolSelect [![1, 2, 3]] [true]).length →
        addNewPoints3D mmInit [![1, 2, 3]] 3 7 [4] [7] [true] = none)) :=
  ⟨⟨rfl, rfl, rfl, by omega, by norm_num [mmInit]⟩,
    addNewPoints3D_capacity mmInit [![1, 2, 3]] 3 7 [4] [7] [true]
      rfl rfl rfl (by omega) (by norm_num [mmInit])⟩

/-! ### Two-view seeding of the scene (source lines 766-784)

`cv2.projectPoints` and the norm are external numerics: the per-point reprojection
error norms of the right view (`projPts2dRight` vs `mpts10o`) and the left view
(`projPts2dLeft` vs `mpts01o`) enter as the lists `errRight`, `errLeft`. -/

/-- `mask_reproj = np.all(np.dstack([normRight < 5, normLeft < 5]), axis=2)`:
a point survives iff its reprojection error is below 5 pixels in both views. -/
def reprojMask (errRight errLeft : List ℚ) : List Bool :=
  (List.zip errRight errLeft).map fun p => decide (p.1 < 5) && decide (p.2 < 5)

/-- The seeding cell: `mm.addNewPoints3D(pts3d, 3, 7, mask_reproj)` followed by
`mm.poses[3] = np.hstack([np.eye(3), np.zeros((3,1))])` and
`mm.poses[7] = np.hstack([R_best, t_best])`. -/
def twoViewSeed (st : MMState) (pts3d : List (Fin 3 → ℚ))
    (errRight errLeft : List ℚ) (alignedIdxL alignedIdxR : List ℤ)
    (R_best : M3) (t_best : Fin 3 → ℚ) : Option MMState :=
  match addNewPoints3D st pts3d 3 7 alignedIdxL alignedIdxR
      (reprojMask errRight errLeft) with
  | none => none
  | some st1 =>
    let st2 : MMState :=
      { st1 with poses := fun c => if c = 3 then RtMat 1 (fun _ => 0) else st1.poses c }
    some { st2 with poses := fun c => if c = 7 then RtMat R_best t_best else st2.poses c }

theorem reprojMask_length (errRight errLeft : List ℚ) :
    (reprojMask errRight errLeft).length = min errRight.length errLeft.length := by
  simp [reprojMask]

theorem reprojMask_getD :
    ∀ (errRight errLeft : List ℚ) (m : ℕ), m < errRight.length → m < errLeft.length →
      ((reprojMask errRight errLeft).getD m false = true ↔
        errRight.getD m 0 < 5 ∧ errLeft.getD m 0 < 5) := by
  intro errRight
  induction errRight with
  | nil =>
    intro errLeft m hR _
    simp at hR
  | cons a as ih =>
    intro errLeft m hR hL
    cases errLeft with
    | nil => simp at hL
    | cons b bs =>
      cases m with
      | zero => simp [reprojMask]
      | succ m' =>
        simp only [reprojMask, List.zip_cons_cons, List.map_cons, List.getD_cons_succ]
        exact ih bs m' (by simp at hR; omega) (by simp at hL; omega)

/-- C6: when the capacity suffices, the seeding step appends exactly the points
whose reprojection error is below 5 pixels in both views (with their visibility
entries at the fresh columns), registers camera 3 with the identity pose `[I|0]`
and camera 7 with the recovered pose `[R_best|t_best]`. -/
theorem twoViewSeed_spec (st : MMState) (pts3d : List (Fin 3 → ℚ))
    (errRight errLeft : List ℚ) (idxL idxR : List ℤ)
    (R_best : M3) (t_best : Fin 3 → ℚ)
    (hRl : errRight.length = pts3d.length) (hLl : errLeft.length = pts3d.length)
    (hL : idxL.length = pts3d.length) (hR : idxR.length = pts3d.length) :
    ∀ hcap : st.map_3d.length +
      (boolSelect pts3d (reprojMask errRight errLeft)).length ≤ 500,
    ∃ st', twoViewSeed st pts3d errRight errLeft idxL idxR R_best t_best = some st' ∧
      st'.map_3d = st.map_3d ++ boolSelect pts3d (reprojMask errRight errLeft) ∧
      (∀ m, m < pts3d.length →
        ((reprojMask errRight errLeft).getD m false = true ↔
          errRight.getD m 0 < 5 ∧ errLeft.getD m 0 < 5)) ∧
      st'.poses 3 = RtMat 1 (fun _ => 0) ∧
      st'.poses 7 = RtMat R_best t_best ∧
      ∀ m, ∀ hm : m < (boolSelect pts3d (reprojMask errRight errLeft)).length,
        st'.vis 3 ⟨st.map_3d.length + m, by omega⟩ =
          (boolSelect idxL (reprojMask errRight errLeft)).getD m 0 ∧
        st'.vis 7 ⟨st.map_3d.length + m, by omega⟩ =
          (boolSelect idxR (reprojMask errRight errLeft)).getD m 0 := by
  intro hcap
  have hmlen : (reprojMask errRight errLeft).length = pts3d.length := by
    rw [reprojMask_length, hRl, hLl, Nat.min_self]
  have heq := addNewPoints3D_some st pts3d 3 7 idxL idxR
    (reprojMask errRight errLeft) (by omega) (by omega) (by omega) (by omega) hcap
  refine ⟨
    { map_3d := st.map_3d ++ boolSelect pts3d (reprojMask errRight errLeft),
      vis := fun c =>
        if c = 7 then writtenRow (st.vis 7) st.map_3d.length
          (boolSelect idxR (reprojMask errRight errLeft))
        else if c = 3 then writtenRow (st.vis 3) st.map_3d.length
          (boolSelect idxL (reprojMask errRight errLeft))
        else st.vis c,
      poses := fun c =>
        if c = 7 then RtMat R_best t_best
        else if c = 3 then RtMat 1 (fun _ => 0)
        else st.poses c }, ?_, rfl, ?_, ?_, ?_, ?_⟩
  · simp only [twoViewSeed]
    rw [heq]
  · intro m hm
    exact reprojMask_getD errRight errLeft m (by omega) (by omega)
  · norm_num
  · norm_num
  · intro m hm
    have hLlen := boolSelect_length_eq (reprojMask errRight errLeft) idxL pts3d
      (by omega) (by omega)
    have hRlen := boolSelect_length_eq (reprojMask errRight errLeft) idxR pts3d
      (by omega) (by omega)
    constructor
    · show (if (3 : ℕ) = 7 then
          writtenRow (st.vis 7) st.map_3d.length
            (boolSelect idxR (reprojMask errRight errLeft))
        else if (3 : ℕ) = 3 then
          writtenRow (st.vis 3) st.map_3d.length
            (boolSelect idxL (reprojMask errRight errLeft))
        else st.vis 3) ⟨st.map_3d.length + m, by omega⟩ =
          (boolSelect idxL (reprojMask errRight errLeft)).getD m 0
      rw [if_neg (by omega), if_pos rfl]
      exact writtenRow_apply _ _ _ m (by omega) (by omega)
    · show (if (7 : ℕ) = 7 then
          writtenRow (st.vis 7) st.map_3d.length
            (boolSelect idxR (reprojMask errRight errLeft))
        else if (7 : ℕ) = 3 then
          writtenRow (st.vis 3) st.map_3d.length
            (boolSelect idxL (reprojMask errRight errLeft))
        else st.vis 7) ⟨st.map_3d.length + m, by omega⟩ =
          (boolSelect idxR (reprojMask errRight errLeft)).getD m 0
      rw [if_pos rfl]
      exact writtenRow_apply _ _ _ m (by omega) (by omega)

/-- Witness for C6: one point with reprojection error 1 pixel in both views,
appended to an empty scene with recovered pose `(I, (0,0,1))`. -/
theorem twoViewSeed_spec_witness :
    ([(1 : ℚ)].length = [(![1, 2, 3] : Fin 3 → ℚ)].length ∧
      [(1 : ℚ)].length = [(![1, 2, 3] : Fin 3 → ℚ)].length ∧
      [(4 : ℤ)].length = [(![1, 2, 3] : Fin 3 → ℚ)].length ∧
      [(7 : ℤ)].length = [(![1, 2, 3] : Fin 3 → ℚ)].length) ∧
    (∀ _ : mmInit.map_3d.length +
        (boolSelect [![1, 2, 3]] (reprojMask [1] [1])).length ≤ 500,
      ∃ st', twoViewSeed mmInit [![1, 2, 3]] [1] [1] [4] [7] 1 ![0, 0, 1] = some st' ∧
        st'.map_3d = mmInit.map_3d ++ boolSelect [![1, 2, 3]] (reprojMask [1] [1]) ∧
        (∀ m, m < [(![1, 2, 3] : Fin 3 → ℚ)].length →
          ((reprojMask [1] [1]).getD m false = true ↔
            [(1 : ℚ)].getD m 0 < 5 ∧ [(1 : ℚ)].getD m 0 < 5)) ∧
        st'.poses 3 = RtMat 1 (fun _ => 0) ∧
        st'.poses 7 = RtMat 1 ![0, 0, 1] ∧
        ∀ m, ∀ hm : m < (boolSelect [![1, 2, 3]] (reprojMask [1] [1])).length,
          st'.vis 3 ⟨mmInit.map_3d.length + m, by omega⟩ =
            (boolSelect [4] (reprojMask [1] [1])).getD m 0 ∧
          st'.vis 7 ⟨mmInit.map_3d.length + m, by omega⟩ =
            (boolSelect [7] (reprojMask [1] [1])).getD m 0) :=
  ⟨⟨rfl, rfl, rfl, rfl⟩,
    twoViewSeed_spec mmInit [![1, 2, 3]] [1] [1] [4] [7] 1 ![0, 0, 1]
      rfl rfl rfl rfl⟩

/-! ### Bundle-adjustment parameter layout and bounds (source lines 1148-1256) -/

/-- `params_size = n_cams * 6 + n_pts * 3 + 3` (source line 1151). -/
def params_size (n_cams n_pts : ℕ) : ℕ := n_cams * 6 + n_pts * 3 + 3

/-- `K_idx`: the index of the first intrinsic parameter.  The layout comments of
the source ("intrinsics start n_cams * 6", line 1157; "3d points start at
K_idx + 3", line 1158) fix `K_idx = n_cams * 6`. -/
def K_idx (n_cams : ℕ) : ℕ := n_cams * 6

/-- `bounds[0] = np.full(params_size, -inf)` then
`bounds[0][K_idx:K_idx+3] = [100, 0, 0]` (source lines 1254-1255); `⊥` is `-inf`. -/
def boundsLo (n_cams : ℕ) : ℕ → WithBot ℚ := fun i =>
  if K_idx n_cams ≤ i ∧ i < K_idx n_cams + 3 then
    (([100, 0, 0] : List ℚ).getD (i - K_idx n_cams) 0 : ℚ)
  else ⊥

/-- `bounds[1] = np.full(params_size, inf)` then
`bounds[1][K_idx:K_idx+3] = [800, W, H]` with `W, H` the image width and height
(source lines 1254, 1256); `⊤` is `+inf`. -/
def boundsHi (n_cams : ℕ) (W H : ℚ) : ℕ → WithTop ℚ := fun i =>
  if K_idx n_cams ≤ i ∧ i < K_idx n_cams + 3 then
    (([800, W, H] : List ℚ).getD (i - K_idx n_cams) 0 : ℚ)
  else ⊤

/-- C8: the bounds vector constrains exactly the three intrinsics — the focal
length to `[100, 800]` and the principal point to `[0, W] x [0, H]` — while every
camera-pose parameter (the first `6 * n_cams` slots) and every 3D-point parameter
(slots from `K_idx + 3` up to `params_size`) is left unbounded `(-inf, +inf)`. -/
theorem ba_bounds_spec (n_cams n_pts : ℕ) (W H : ℚ) :
    boundsLo n_cams (K_idx n_cams) = (100 : ℚ) ∧
    boundsHi n_cams W H (K_idx n_cams) = (800 : ℚ) ∧
    boundsLo n_cams (K_idx n_cams + 1) = (0 : ℚ) ∧
    boundsHi n_cams W H (K_idx n_cams + 1) = (W : WithTop ℚ) ∧
    boundsLo n_cams (K_idx n_cams + 2) = (0 : ℚ) ∧
    boundsHi n_cams W H (K_idx n_cams + 2) = (H : WithTop ℚ) ∧
    (∀ j, j < n_cams * 6 → boundsLo n_cams j = ⊥ ∧ boundsHi n_cams W H j = ⊤) ∧
    (∀ p, K_idx n_cams + 3 ≤ p → p < params_size n_cams n_pts →
      boundsLo n_cams p = ⊥ ∧ boundsHi n_cams W H p = ⊤) := by
  refine ⟨?_, ?_, ?_, ?_, ?_, ?_, ?_, ?_⟩
  · rw [boundsLo, if_pos ⟨Nat.le_refl _, by omega⟩, Nat.sub_self]
    rfl
  · rw [boundsHi, if_pos ⟨Nat.le_refl _, by omega⟩, Nat.sub_self]
    rfl
  · rw [boundsLo, if_pos ⟨by omega, by omega⟩, Nat.add_sub_cancel_left]
    rfl
  · rw [boundsHi, if_pos ⟨by omega, by omega⟩, Nat.add_sub_cancel_left]
    rfl
  · rw [boundsLo, if_pos ⟨by omega, by omega⟩, Nat.add_sub_cancel_left]
    rfl
  · rw [boundsHi, if_pos ⟨by omega, by omega⟩, Nat.add_sub_cancel_left]
    rfl
  · intro j hj
    constructor
    · rw [boundsLo]
      simp only [K_idx]
      rw [if_neg (by omega)]
    · rw [boundsHi]
      simp only [K_idx]
      rw [if_neg (by omega)]
  · intro p h1 h2
    simp only [K_idx] at h1
    constructor
    · rw [boundsLo]
      simp only [K_idx]
      rw [if_neg (by omega)]
    · rw [boundsHi]
      simp only [K_idx]
      rw [if_neg (by omega)]

/-- Witness for C8 at 3 cameras, 10 points, a 640x480 image: the focal-length slot
is bounded to `[100, 800]` and the first pose slot is unbounded. -/
theorem ba_bounds_spec_witness :
    (0 < 3 * 6 ∧ boundsLo 3 0 = ⊥ ∧ boundsHi 3 640 480 0 = ⊤) ∧
    boundsLo 3 (K_idx 3) = (100 : ℚ) ∧ boundsHi 3 640 480 (K_idx 3) = (800 : ℚ) :=
  ⟨⟨by norm_num, ((ba_bounds_spec 3 10 640 480).2.2.2.2.2.2.1 0 (by norm_num)).1,
      ((ba_bounds_spec 3 10 640 480).2.2.2.2.2.2.1 0 (by norm_num)).2⟩,
    (ba_bounds_spec 3 10 640 480).1, (ba_bounds_spec 3 10 640 480).2.1⟩

/-! ### `MatchMaker.alignedKptsTo3DMap` (source lines 184-193) -/

/-- numpy integer array indexing `xs[i]`: a negative index `-len ≤ i < 0` wraps
around to `len + i`; out-of-range indexing raises (modelled as `none`). -/
def npIndex {α : Type} (xs : List α) (i : ℤ) : Option α :=
  if 0 ≤ i then xs.get? i.toNat
  else if -(xs.length : ℤ) ≤ i then xs.get? (xs.length - (-i).toNat)
  else none

/-- numpy fancy indexing `xs[idx]` with an integer index array. -/
def fancyIndex {α : Type} (xs : List α) (idx : List ℤ) : Option (List α) :=
  idx.mapM (npIndex xs)

/-- `MatchMaker.alignedKptsTo3DMap(li_3d, rj_2d)`:
`li_3d_idx = point3d_camera_visibility[li_3d]` enters as `visRow`,
`kpts_match_graph[li_3d, rj_2d]` as `matchRow`, and the two keypoint arrays as
`kptsLi`, `kptsRj`.  The source computes
`indices_rj = matchRow[visRow]` (fancy indexing, so `-1` sentinels wrap to the
last column), then returns
`(kptsLi[visRow[visRow > -1]], kptsRj[indices_rj[indices_rj > -1]])`. -/
def alignedKptsTo3DMap {α : Type} (kptsLi kptsRj : List α)
    (matchRow visRow : List ℤ) : Option (List α × List α) :=
  match fancyIndex matchRow visRow with
  | none => none
  | some indices_rj =>
    match fancyIndex kptsRj (indices_rj.filter fun i => decide (-1 < i)) with
    | none => none
    | some selected_rj =>
      match fancyIndex kptsLi (visRow.filter fun i => decide (-1 < i)) with
      | none => none
      | some selected_li => some (selected_li, selected_rj)

/-- C10: concrete evaluation refuting the alignment contract.  With one left
keypoint `10`, right keypoints `[30, 40]`, match-graph row `[-1, 1]` (the left
keypoint 0 has no partner in the right view; the last column maps to right
keypoint 1) and visibility row `[0, -1, -1]`, the function returns a left list of
length 1 and a right list of length 2: the `-1` visibility sentinels wrap around
to the last match-graph column and contribute right-view entries, and the left and
right selections are filtered by independent masks, so the two returned lists are
neither equal-length nor pairwise matched, and right entries do derive from `-1`
sentinels. -/
theorem alignedKptsTo3DMap_misaligned_cex :
    alignedKptsTo3DMap [10] [30, 40] [-1, 1] [0, -1, -1] =
      some ([(10 : ℕ)], [40, 40]) ∧
    ([(10 : ℕ)].length = [(40 : ℕ), 40].length → False) := by
  constructor
  · decide
  · decide

end MVG
